import Mathlib

/-!
Verification development for the proposal/patch core of the
ai-powered-code-review-refactoring-assistant repository.

Python strings are modelled as `List Char`; Python dictionaries returned by the
services are modelled as structures whose fields are the dictionary keys (a key
that is absent on some return paths is modelled by an empty-list/default value).
Real-number scores (Python floats) are modelled as rationals; the claims under
study only compare scores at points where the float and rational computations
agree.  Regular-expression scans (`re.search`, `re.match`) are modelled with a
Brzozowski-derivative matcher over an explicit regex AST; `re.IGNORECASE` is
modelled by lower-casing the subject text over the ASCII range (every pattern in
the source is ASCII).
-/

namespace RefactorIQ

/-- Python `str` modelled as a list of characters. -/
abbrev Str := List Char

/-- Characters stripped by Python `str.strip()` (ASCII whitespace range;
the source never feeds non-ASCII whitespace to `strip`). -/
def pyIsSpace (c : Char) : Bool :=
  c = ' ' || c = '\t' || c = '\n' || c = '\r' || c = '\x0b' || c = '\x0c'

/-- Python `str.strip()`. -/
def pyStrip (s : Str) : Str :=
  (((s.dropWhile pyIsSpace).reverse).dropWhile pyIsSpace).reverse

/-- Python `str.split('\n')`: always returns at least one (possibly empty) piece. -/
def splitNL : Str → List Str
  | [] => [[]]
  | c :: rest =>
    if c = '\n' then [] :: splitNL rest
    else
      match splitNL rest with
      | [] => [[c]]
      | l :: ls => (c :: l) :: ls

/-- Python `str.startswith`. -/
def startsWith : Str → Str → Bool
  | [], _ => true
  | _ :: _, [] => false
  | p :: ps, c :: cs => p = c && startsWith ps cs

/-- Substring containment (Python `in` / what `re.search` needs for a literal). -/
def containsSubstr (pat : Str) : Str → Bool
  | [] => startsWith pat []
  | c :: rest => startsWith pat (c :: rest) || containsSubstr pat rest

/-- ASCII lower-casing, the fragment of Python case-insensitivity the source
patterns can observe (all patterns are ASCII). -/
def asciiLower (c : Char) : Char :=
  if 'A' ≤ c && c ≤ 'Z' then Char.ofNat (c.toNat + 32) else c

/-- Decimal rendering of a natural number (used for line numbers in messages). -/
def natStr (n : Nat) : Str := Nat.toDigits 10 n

/-- Rendering of a rational score inside a message.  The Python source formats
the underlying float; the claims never depend on the rendered digits, so the
rendering is abstracted to numerator/denominator form. -/
def ratStr (q : ℚ) : Str := (toString q.num).data ++ "/".data ++ (toString q.den).data

/-- Python `max` on two numbers (returns the second argument when it is
strictly larger).  Agrees with `max`; stated as `pyMax_eq_max` below. -/
def pyMax (a b : ℚ) : ℚ := if a < b then b else a

namespace PyRe

/-- Regex AST covering exactly the constructs used by the source patterns:
character classes, concatenation, alternation, Kleene star (plus `?`/`+`
as derived forms). -/
inductive RE where
  | emp : RE
  | eps : RE
  | cls : (Char → Bool) → RE
  | cat : RE → RE → RE
  | alt : RE → RE → RE
  | star : RE → RE

/-- The regex accepts the empty string. -/
def nullable : RE → Bool
  | .emp => false
  | .eps => true
  | .cls _ => false
  | .cat a b => nullable a && nullable b
  | .alt a b => nullable a || nullable b
  | .star _ => true

/-- Brzozowski derivative with respect to one character. -/
def derivC : RE → Char → RE
  | .emp, _ => .emp
  | .eps, _ => .emp
  | .cls p, c => if p c then .eps else .emp
  | .cat a b, c =>
    if nullable a then .alt (.cat (derivC a c) b) (derivC b c)
    else .cat (derivC a c) b
  | .alt a b, c => .alt (derivC a c) (derivC b c)
  | .star a, c => .cat (derivC a c) (.star a)

/-- Some prefix of `s` (possibly empty) is accepted by `r`: the semantics of a
successful Python `re.match` at the current position. -/
def matchesFrom : RE → Str → Bool
  | r, [] => nullable r
  | r, c :: rest => nullable r || matchesFrom (derivC r c) rest

/-- Python `re.search`: the pattern matches starting at some position. -/
def search : RE → Str → Bool
  | r, [] => nullable r
  | r, c :: rest => matchesFrom r (c :: rest) || search r rest

/-- Literal character sequence. -/
def lit : Str → RE
  | [] => .eps
  | c :: rest => .cat (.cls (fun x => x = c)) (lit rest)

/-- Regex `+` (one or more). -/
def plus (r : RE) : RE := .cat r (.star r)

/-- Regex `?` (zero or one). -/
def opt (r : RE) : RE := .alt r .eps

/-- Python `\s` over the ASCII range. -/
def wsChar (c : Char) : Bool :=
  c = ' ' || c = '\t' || c = '\n' || c = '\r' || c = '\x0b' || c = '\x0c'

/-- Python `\d`. -/
def digitChar (c : Char) : Bool := '0' ≤ c && c ≤ '9'

/-- Python `re.search(pat, s, re.IGNORECASE)` for the (all-ASCII, already
lower-cased) source patterns: search over the lower-cased subject. -/
def searchCI (r : RE) (s : Str) : Bool := search r (s.map asciiLower)

end PyRe

/-- ASCII apostrophe. -/
def quoteChar : Char := Char.ofNat 39

/-- Character class `['"]`. -/
def quoteCls : PyRe.RE := .cls (fun c => c = quoteChar || c = '"')

/-- Character class `[^'"]`. -/
def notQuoteCls : PyRe.RE := .cls (fun c => !(c = quoteChar || c = '"'))

/-- Character class `[\/\\]`. -/
def slashCls : PyRe.RE := .cls (fun c => c = '/' || c = '\\')

/-- Pattern `rm\s+-rf`. -/
def reRmRf : PyRe.RE :=
  .cat (PyRe.lit "rm".data) (.cat (PyRe.plus (.cls PyRe.wsChar)) (PyRe.lit "-rf".data))

/-- Pattern `sudo\s+`. -/
def reSudo : PyRe.RE := .cat (PyRe.lit "sudo".data) (PyRe.plus (.cls PyRe.wsChar))

/-- Pattern `eval\s*\(`. -/
def reEval : PyRe.RE :=
  .cat (PyRe.lit "eval".data) (.cat (.star (.cls PyRe.wsChar)) (PyRe.lit "(".data))

/-- Pattern `exec\s*\(`. -/
def reExec : PyRe.RE :=
  .cat (PyRe.lit "exec".data) (.cat (.star (.cls PyRe.wsChar)) (PyRe.lit "(".data))

/-- Pattern `__import__`. -/
def reDunderImport : PyRe.RE := PyRe.lit "__import__".data

/-- Pattern `open\s*\(['"][\/\\]`. -/
def reOpenAbs : PyRe.RE :=
  .cat (PyRe.lit "open".data)
    (.cat (.star (.cls PyRe.wsChar)) (.cat (PyRe.lit "(".data) (.cat quoteCls slashCls)))

/-- Pattern `os\.system`. -/
def reOsSystem : PyRe.RE := PyRe.lit "os.system".data

/-- Pattern `subprocess\.`. -/
def reSubprocessDot : PyRe.RE := PyRe.lit "subprocess.".data

/-- Pattern `shell=True` (lower-cased for the case-insensitive scan). -/
def reShellTrue : PyRe.RE := PyRe.lit "shell=true".data

/-- Shared tail `\s*=\s*['"][^'"]+['"]` of the hardcoded-literal patterns. -/
def reAssignTail : PyRe.RE :=
  .cat (.star (.cls PyRe.wsChar))
    (.cat (PyRe.lit "=".data)
      (.cat (.star (.cls PyRe.wsChar))
        (.cat quoteCls (.cat (PyRe.plus notQuoteCls) quoteCls))))

/-- Pattern `password\s*=\s*['"][^'"]+['"]`. -/
def rePassword : PyRe.RE := .cat (PyRe.lit "password".data) reAssignTail

/-- Pattern `api_?key\s*=\s*['"][^'"]+['"]`. -/
def reApiKey : PyRe.RE :=
  .cat (PyRe.lit "api".data)
    (.cat (PyRe.opt (.cls (fun c => c = '_'))) (.cat (PyRe.lit "key".data) reAssignTail))

/-- Pattern `secret\s*=\s*['"][^'"]+['"]`. -/
def reSecret : PyRe.RE := .cat (PyRe.lit "secret".data) reAssignTail

/-- Pattern `TODO|FIXME|HACK` (lower-cased for the case-insensitive scan). -/
def reTodo : PyRe.RE :=
  .alt (PyRe.lit "todo".data) (.alt (PyRe.lit "fixme".data) (PyRe.lit "hack".data))

/-- Pattern `console\.log|print\s*\(`. -/
def reDebug : PyRe.RE :=
  .alt (PyRe.lit "console.log".data)
    (.cat (PyRe.lit "print".data) (.cat (.star (.cls PyRe.wsChar)) (PyRe.lit "(".data)))

/-- An entry of the `issues`/`warnings` lists: the dictionaries built by the
source carry `type`, optionally `pattern`, and `description` keys; a missing
`pattern` key is modelled as the empty string. -/
structure Issue where
  type : Str
  pattern : Str
  description : Str
deriving DecidableEq

/-- The `dangerous_patterns` table of `PatchValidator.validate_patch_safety`:
regex, its source text, and the description attached to a match. -/
def dangerousPatterns : List (PyRe.RE × Str × Str) :=
  [ (reRmRf, "rm\\s+-rf".data, "Dangerous file deletion command".data),
    (reSudo, "sudo\\s+".data, "Elevated privilege command".data),
    (reEval, "eval\\s*\\(".data, "Dynamic code execution".data),
    (reExec, "exec\\s*\\(".data, "Dynamic code execution".data),
    (reDunderImport, "__import__".data, "Dynamic import".data),
    (reOpenAbs, "open\\s*\\([quote][\\/\\\\]".data, "Absolute path file access".data),
    (reOsSystem, "os\\.system".data, "System command execution".data),
    (reSubprocessDot, "subprocess\\.".data, "Subprocess execution".data),
    (reShellTrue, "shell=True".data, "Shell command injection risk".data) ]

/-- The `mistake_patterns` table of `PatchValidator.validate_patch_safety`. -/
def mistakePatterns : List (PyRe.RE × Str × Str) :=
  [ (rePassword, "password-literal".data, "Hardcoded password".data),
    (reApiKey, "api-key-literal".data, "Hardcoded API key".data),
    (reSecret, "secret-literal".data, "Hardcoded secret".data),
    (reTodo, "TODO|FIXME|HACK".data, "TODO/FIXME comments".data),
    (reDebug, "console\\.log|print\\s*\\(".data, "Debug statements".data) ]

/-- The result dictionary of `PatchValidator.validate_patch_safety`. -/
structure SafetyResult where
  is_safe : Bool
  safety_score : ℚ
  issues : List Issue
  warnings : List Issue
  recommendation : Str
deriving DecidableEq

namespace PatchValidator

/-- Embedding of `PatchValidator.validate_patch_safety` (the normal path:
its `try` body; the `except` path is `validate_patch_safety_error` below).
Each matched dangerous pattern yields one issue, each matched mistake pattern
one warning; the score is `max(0, 1 - 0.3*|issues| - 0.1*|warnings|)`. -/
def validate_patch_safety (patch_content : Str) : SafetyResult :=
  let issues := (dangerousPatterns.filter fun pr => PyRe.searchCI pr.1 patch_content).map
    fun pr => ⟨"security".data, pr.2.1, pr.2.2⟩
  let warnings := (mistakePatterns.filter fun pr => PyRe.searchCI pr.1 patch_content).map
    fun pr => ⟨"quality".data, pr.2.1, pr.2.2⟩
  let safety_score : ℚ :=
    pyMax 0 (1 - ((issues.length : ℚ) * mkRat 3 10 + (warnings.length : ℚ) * mkRat 1 10))
  { is_safe := issues.length = 0
    safety_score := safety_score
    issues := issues
    warnings := warnings
    recommendation := if issues.length = 0 then "safe".data else "review_required".data }

/-- Embedding of the `except` branch of `PatchValidator.validate_patch_safety`:
an internal error with message `msg` maps to a rejecting result. -/
def validate_patch_safety_error (msg : Str) : SafetyResult :=
  { is_safe := false
    safety_score := 0
    issues := [⟨"validation_error".data, [], msg⟩]
    warnings := []
    recommendation := "reject".data }

end PatchValidator

/-- Embedding of the module-level helper `is_safe_patch`: zero blocking issues
and a safety score strictly above 0.7. -/
def is_safe_patch (patch_content : Str) : Bool :=
  let validation := PatchValidator.validate_patch_safety patch_content
  validation.is_safe && decide (mkRat 7 10 < validation.safety_score)

/-- Chunk-header regex `@@ -\d+(?:,\d+)? \+\d+(?:,\d+)? @@` shared (textually)
by the format validator and by `PatchParser._parse_chunk_header`. -/
def chunkHeaderRE : PyRe.RE :=
  .cat (PyRe.lit "@@ -".data)
    (.cat (PyRe.plus (.cls PyRe.digitChar))
      (.cat (PyRe.opt (.cat (PyRe.lit ",".data) (PyRe.plus (.cls PyRe.digitChar))))
        (.cat (PyRe.lit " +".data)
          (.cat (PyRe.plus (.cls PyRe.digitChar))
            (.cat (PyRe.opt (.cat (PyRe.lit ",".data) (PyRe.plus (.cls PyRe.digitChar))))
              (PyRe.lit " @@".data))))))

/-- Python `re.match(chunk-header-regex, line)` succeeds: the regex matches a
prefix of the line (trailing text is allowed, as with `re.match`). -/
def matchesChunkHeader (line : Str) : Bool := PyRe.matchesFrom chunkHeaderRE line

/-- Message built by `validate_patch_format` for an offending chunk-header line
at 0-based index `i` (reported 1-based, as in the source). -/
def chunkErrMsg (i : Nat) (line : Str) : Str :=
  "Invalid chunk header at line ".data ++ natStr (i + 1) ++ ": ".data ++ line

/-- The `chunk_errors` accumulation loop of `validate_patch_format`:
`for i, line in enumerate(lines)` collecting a message for every line that
starts with `@@` but fails the chunk-header regex. -/
def chunkErrorsFrom (i : Nat) : List Str → List Str
  | [] => []
  | l :: rest =>
    (if startsWith "@@".data l && !(matchesChunkHeader l) then [chunkErrMsg i l] else [])
      ++ chunkErrorsFrom (i + 1) rest

/-- The result dictionary of `PatchValidator.validate_patch_format`: either
`{"valid": True, "format": "unified_diff"}` or `{"valid": False, "error": e}`. -/
inductive FormatResult where
  | ok : FormatResult
  | invalid : Str → FormatResult
deriving DecidableEq

/-- The `valid` field of a format result. -/
def FormatResult.valid : FormatResult → Bool
  | .ok => true
  | .invalid _ => false

/-- The `error` field of a format result (absent, modelled empty, when valid). -/
def FormatResult.error : FormatResult → Str
  | .ok => []
  | .invalid e => e

namespace PatchValidator

/-- Embedding of `PatchValidator.validate_patch_format`: empty/whitespace-only
input is rejected; the stripped text must contain a `--- ` line and an `@@`
line; every `@@` line must match the chunk-header regex, else the offending
line numbers are reported. -/
def validate_patch_format (patch_content : Str) : FormatResult :=
  if pyStrip patch_content = [] then .invalid "Empty patch content".data
  else
    let lines := splitNL (pyStrip patch_content)
    let has_file_headers := lines.any fun l => startsWith "--- ".data l
    let has_chunk_headers := lines.any fun l => startsWith "@@".data l
    if !(has_file_headers && has_chunk_headers) then .invalid "Invalid diff format".data
    else
      let chunk_errors := chunkErrorsFrom 0 lines
      if chunk_errors ≠ [] then
        .invalid ("Invalid chunk headers: ".data ++ List.intercalate "; ".data chunk_errors)
      else .ok

end PatchValidator

/-- One classified line of a chunk: `type` is `addition`, `deletion` or
`context`, as in the dictionaries built by the parser. -/
structure DiffLine where
  type : Str
  content : Str
deriving DecidableEq

/-- One chunk of a parsed diff. -/
structure Chunk where
  header : Str
  old_start : Nat
  old_count : Nat
  new_start : Nat
  new_count : Nat
  lines : List DiffLine
deriving DecidableEq

/-- One file record of a parsed diff (`new_path` is `None` until a `+++ b/`
line is seen). -/
structure FileDiff where
  old_path : Str
  new_path : Option Str
  chunks : List Chunk
  additions : Nat
  deletions : Nat
deriving DecidableEq

/-- The dictionary returned by `PatchParser.parse_unified_diff`. -/
structure ParsedDiff where
  files : List FileDiff
  total_additions : Nat
  total_deletions : Nat
  total_files : Nat
deriving DecidableEq

/-- Maximal run of leading decimal digits and the rest of the string: the
behaviour of a greedy `(\d+)` group followed by a non-digit in the pattern. -/
def takeDigits (s : Str) : Str × Str :=
  (s.takeWhile PyRe.digitChar, s.dropWhile PyRe.digitChar)

/-- Numeric value of a digit string (`int()` on a regex group). -/
def digitsVal (ds : Str) : Nat :=
  ds.foldl (fun n c => n * 10 + (c.toNat - 48)) 0

namespace PatchParser

/-- Tail `(\d+)(?:,(\d+))? @@` of the chunk-header regex, after the `+`:
returns the full extracted tuple given the already-parsed old coordinates. -/
def parseNewPart (old_start old_count : Nat) (s : Str) : Option (Nat × Nat × Nat × Nat) :=
  match takeDigits s with
  | ([], _) => none
  | (ds3, r3) =>
    let new_start := digitsVal ds3
    let (new_count, r4) :=
      match r3 with
      | ',' :: t =>
        match takeDigits t with
        | ([], _) => ((1 : Nat), r3)
        | (ds, r) => (digitsVal ds, r)
      | _ => ((1 : Nat), r3)
    if startsWith " @@".data r4 then some (old_start, old_count, new_start, new_count)
    else none

/-- Embedding of `PatchParser._parse_chunk_header`: match
`@@ -(\d+)(?:,(\d+))? \+(\d+)(?:,(\d+))? @@` against a prefix of the header
line and extract `(old_start, old_count, new_start, new_count)`, counts
defaulting to 1.  Greedy digit groups are maximal digit runs (the characters
that follow each group in the pattern are non-digits, so this coincides with
the backtracking regex). -/
def parse_chunk_header (header : Str) : Option (Nat × Nat × Nat × Nat) :=
  if startsWith "@@ -".data header then
    let s1 := header.drop 4
    match takeDigits s1 with
    | ([], _) => none
    | (ds1, r1) =>
      let old_start := digitsVal ds1
      match r1 with
      | ',' :: t =>
        match takeDigits t with
        | ([], _) => none
        | (ds2, r2) =>
          match r2 with
          | ' ' :: '+' :: t3 => parseNewPart old_start (digitsVal ds2) t3
          | _ => none
      | ' ' :: '+' :: t3 => parseNewPart old_start 1 t3
      | _ => none
  else none

end PatchParser

/-- Parser state while folding over the lines of a diff: the file currently
being accumulated, the finished files, and the running global totals. -/
structure ParseState where
  current : Option FileDiff
  files : List FileDiff
  total_additions : Nat
  total_deletions : Nat
deriving DecidableEq

/-- Replace the last element of a list (used for appending a line to the most
recent chunk, mirroring in-place mutation of `current_file["chunks"][-1]`). -/
def modifyLast (f : α → α) : List α → List α
  | [] => []
  | [x] => [f x]
  | x :: y :: rest => x :: modifyLast f (y :: rest)

namespace PatchParser

/-- One iteration of the line loop of `PatchParser.parse_unified_diff`. -/
def parseStep (st : ParseState) (line : Str) : ParseState :=
  if startsWith "--- a/".data line then
    { st with
      files := st.files ++ st.current.toList
      current := some ⟨line.drop 6, none, [], 0, 0⟩ }
  else if startsWith "+++ b/".data line then
    match st.current with
    | some f => { st with current := some { f with new_path := some (line.drop 6) } }
    | none => st
  else if startsWith "@@".data line then
    match st.current, parse_chunk_header line with
    | some f, some (os, oc, ns, nc) =>
      { st with current := some { f with chunks := f.chunks ++ [⟨line, os, oc, ns, nc, []⟩] } }
    | _, _ => st
  else
    match st.current with
    | some f =>
      if f.chunks ≠ [] then
        if startsWith "+".data line then
          { st with
            current := some { f with
              chunks := modifyLast
                (fun c => { c with lines := c.lines ++ [⟨"addition".data, line.drop 1⟩] }) f.chunks
              additions := f.additions + 1 }
            total_additions := st.total_additions + 1 }
        else if startsWith "-".data line then
          { st with
            current := some { f with
              chunks := modifyLast
                (fun c => { c with lines := c.lines ++ [⟨"deletion".data, line.drop 1⟩] }) f.chunks
              deletions := f.deletions + 1 }
            total_deletions := st.total_deletions + 1 }
        else
          { st with
            current := some { f with
              chunks := modifyLast
                (fun c => { c with lines := c.lines ++
                  [⟨"context".data, if startsWith " ".data line then line.drop 1 else line⟩] })
                f.chunks } }
      else st
    | none => st

/-- Embedding of `PatchParser.parse_unified_diff`: strip, split into lines,
fold the line loop, then flush the last open file record.  The function is
total; its `except` branch (which returns an empty result) is unreachable for
the pure line loop and is not modelled. -/
def parse_unified_diff (diff_content : Str) : ParsedDiff :=
  let lines := splitNL (pyStrip diff_content)
  let st := lines.foldl parseStep ⟨none, [], 0, 0⟩
  let files := st.files ++ st.current.toList
  ⟨files, st.total_additions, st.total_deletions, files.length⟩

end PatchParser

/-- The `ProposalStatus` enumeration of `models/proposal.py`. -/
inductive ProposalStatus where
  | pending | validating | applying | applied | rejected | failed | pr_created
deriving DecidableEq

/-- The fields of a `Proposal` record that the apply workflow reads.  The
scores are Python floats, modelled as rationals. -/
structure Proposal where
  id : Nat
  finding_id : Nat
  title : Str
  description : Str
  patch_diff : Str
  confidence_score : ℚ
  status : ProposalStatus
deriving DecidableEq

/-- The fields of a `User` record that the apply workflow reads; a `None`
value of an optional string field is modelled as the empty string (both are
falsy in the source's truthiness tests). -/
structure UserData where
  email : Str
  display_name : Str
  github_access_token : Str
  gitlab_access_token : Str
deriving DecidableEq

/-- The `RepositoryProvider` enumeration. -/
inductive RepositoryProvider where
  | github | gitlab | bitbucket
deriving DecidableEq

/-- The fields of a `Repository` record that the apply workflow reads. -/
structure Repo where
  provider : RepositoryProvider
  full_name : Str
  default_branch : Str
deriving DecidableEq

/-- The combined-result dictionary of `ProposalService.validate_proposal_safety`. -/
structure GateResult where
  is_safe : Bool
  confidence_score : ℚ
  safety_score : ℚ
  issues : List Issue
  warnings : List Issue
deriving DecidableEq

namespace ProposalService

/-- Embedding of `ProposalService.validate_proposal_safety` (the apply gate):
combines patch-safety, patch-format and the `confidence_score >= 0.7`
threshold; the issues list collects safety issues, a format entry and a
low-confidence entry, in that order. -/
def validate_proposal_safety (p : Proposal) : GateResult :=
  let safety_result := PatchValidator.validate_patch_safety p.patch_diff
  let format_result := PatchValidator.validate_patch_format p.patch_diff
  let confidence_check : Bool := decide (p.confidence_score ≥ mkRat 7 10)
  let is_safe := safety_result.is_safe && format_result.valid && confidence_check
  let issues :=
    (if safety_result.is_safe then [] else safety_result.issues)
      ++ (if format_result.valid then []
          else [⟨"format".data, [], format_result.error⟩])
      ++ (if confidence_check then []
          else [⟨"confidence".data, [],
                 "Low confidence score: ".data ++ ratStr p.confidence_score⟩])
  { is_safe := is_safe
    confidence_score := p.confidence_score
    safety_score := safety_result.safety_score
    issues := issues
    warnings := safety_result.warnings }

end ProposalService

/-- A git invocation: the argv list handed to `_run_git_command`. -/
abbrev GitCmd := List Str

/-- The result dictionary of `_run_git_command`. -/
structure CmdResult where
  success : Bool
  output : Str
  error : Str
  returncode : Int
deriving DecidableEq

/-- Observable side effects of the apply workflow: git subprocess invocations
and persisted proposal-status writes.  (Local file writes and workspace
cleanup carry no remote/persistence effect and are not evented.) -/
inductive Event where
  | runGit : GitCmd → Event
  | setStatus : ProposalStatus → Event
deriving DecidableEq

/-- Outcome environment for the orchestration layer: what the external git
subprocess would report for each invocation.  The orchestration embeddings are
parametric in this environment; the launch mechanics of `_run_git_command`
itself are examined separately below. -/
abbrev GitEnv := GitCmd → CmdResult

namespace GitCmds

/-- The `git apply --check validate_patch.diff` dry-run invocation. -/
def check : GitCmd := ["git".data, "apply".data, "--check".data, "validate_patch.diff".data]

/-- The `git apply --index temp_patch.diff` real-apply invocation. -/
def applyIndex : GitCmd := ["git".data, "apply".data, "--index".data, "temp_patch.diff".data]

/-- The `git reset --hard HEAD` invocation of `_rollback_from_backup`. -/
def resetHard : GitCmd := ["git".data, "reset".data, "--hard".data, "HEAD".data]

/-- The `git stash push -m refactoriq_backup_<id>` invocation of `_create_backup`. -/
def stashPush (backupId : Str) : GitCmd :=
  ["git".data, "stash".data, "push".data, "-m".data, "refactoriq_backup_".data ++ backupId]

/-- The `git clone [--branch b] --depth 1 url path` invocation. -/
def clone (branch : Option Str) (url path : Str) : GitCmd :=
  ["git".data, "clone".data]
    ++ (match branch with | some b => ["--branch".data, b] | none => [])
    ++ ["--depth".data, "1".data, url, path]

/-- The `git checkout <branch>` invocation. -/
def checkout (branch : Str) : GitCmd := ["git".data, "checkout".data, branch]

/-- The `git checkout -b <branch>` invocation. -/
def checkoutNew (branch : Str) : GitCmd := ["git".data, "checkout".data, "-b".data, branch]

/-- The `git config user.name <n>` invocation. -/
def configName (n : Str) : GitCmd := ["git".data, "config".data, "user.name".data, n]

/-- The `git config user.email <e>` invocation. -/
def configEmail (e : Str) : GitCmd := ["git".data, "config".data, "user.email".data, e]

/-- The `git add .` invocation. -/
def addAll : GitCmd := ["git".data, "add".data, ".".data]

/-- The `git commit -m <msg>` invocation. -/
def commit (msg : Str) : GitCmd := ["git".data, "commit".data, "-m".data, msg]

/-- The `git rev-parse HEAD` invocation. -/
def revParse : GitCmd := ["git".data, "rev-parse".data, "HEAD".data]

/-- The `git push -u origin <branch>` invocation. -/
def push (branch : Str) : GitCmd :=
  ["git".data, "push".data, "-u".data, "origin".data, branch]

end GitCmds

/-- Recursion core of `replaceRemove`, driven by a character-count fuel so
that evaluation is structural (each step consumes at least one character, so
`s.length` fuel always suffices). -/
def replaceRemoveAux (pat : Str) : Nat → Str → Str
  | 0, s => s
  | _ + 1, [] => []
  | fuel + 1, c :: rest =>
    if !pat.isEmpty && startsWith pat (c :: rest) then
      replaceRemoveAux pat fuel ((c :: rest).drop pat.length)
    else c :: replaceRemoveAux pat fuel rest

/-- Remove every occurrence of a pattern from a string
(Python `str.replace(pat, "")`). -/
def replaceRemove (pat : Str) (s : Str) : Str := replaceRemoveAux pat s.length s

namespace GitOperationsService

/-- The module's working directory for clones and backups. -/
def work_dir : Str := "/tmp/refactoriq_work".data

/-- Embedding of `GitOperationsService._prepare_clone_url`. -/
def prepare_clone_url (repository : Repo) (access_token : Str) : Str :=
  match repository.provider with
  | .github =>
    "https://".data ++ access_token ++ "@github.com/".data
      ++ replaceRemove "github.com/".data repository.full_name ++ ".git".data
  | .gitlab =>
    "https://oauth2:".data ++ access_token ++ "@gitlab.com/".data
      ++ replaceRemove "gitlab.com/".data repository.full_name ++ ".git".data
  | _ => repository.full_name

/-- Embedding of `GitOperationsService.clone_repository`: one clone invocation;
on success the generated workspace path is returned.  The random directory
suffix is supplied as `cloneId`. -/
def clone_repository (env : GitEnv) (cloneUrl : Str) (branch : Option Str)
    (cloneId : Str) : Option Str × List Event :=
  let clone_path := work_dir ++ "/repo_".data ++ cloneId
  let cmd := GitCmds.clone branch cloneUrl clone_path
  let r := env cmd
  (if r.success then some clone_path else none, [.runGit cmd])

/-- Embedding of `GitOperationsService.create_branch`: checkout the base
branch, then create-and-checkout the new branch. -/
def create_branch (env : GitEnv) (branch_name base_branch : Str) : Bool × List Event :=
  let r1 := env (GitCmds.checkout base_branch)
  if !r1.success then (false, [.runGit (GitCmds.checkout base_branch)])
  else
    let r2 := env (GitCmds.checkoutNew branch_name)
    (r2.success, [.runGit (GitCmds.checkout base_branch), .runGit (GitCmds.checkoutNew branch_name)])

/-- Embedding of `GitOperationsService._validate_patch`: a `git apply --check`
dry run; returns the validity flag and the diagnostic on failure. -/
def validate_patch (env : GitEnv) : (Bool × Str) × List Event :=
  let r := env GitCmds.check
  ((r.success, if r.success then [] else r.error), [.runGit GitCmds.check])

/-- Result dictionary of `_create_backup`. -/
structure BackupResult where
  success : Bool
  backup_path : Str
deriving DecidableEq

/-- Embedding of `GitOperationsService._create_backup`: issues a `git stash
push` whose result is ignored, and reports success unconditionally (the
failure branch of the source is reachable only through an exception). -/
def create_backup (env : GitEnv) (backupId : Str) : BackupResult × List Event :=
  let backup_path := work_dir ++ "/backup_".data ++ backupId
  let cmd := GitCmds.stashPush backupId
  let _r := env cmd
  ({ success := true, backup_path := backup_path }, [.runGit cmd])

/-- Embedding of `GitOperationsService._rollback_from_backup`: a plain
`git reset --hard HEAD`; the recorded `backup_path` argument is not used by
the source body. -/
def rollback_from_backup (env : GitEnv) (backup_path : Str) : Bool × List Event :=
  let r := env GitCmds.resetHard
  (r.success, [.runGit GitCmds.resetHard])

/-- Result dictionary of `apply_patch` (keys absent on some paths are
modelled as empty strings). -/
structure ApplyPatchResult where
  success : Bool
  error : Str
  backup_path : Str
deriving DecidableEq

/-- Embedding of `GitOperationsService.apply_patch`: optional dry-run
validation, backup checkpoint, real apply, and rollback on a failed apply. -/
def apply_patch (env : GitEnv) (validate : Bool) (backupId : Str) :
    ApplyPatchResult × List Event :=
  let validationStep : Option Str × List Event :=
    if validate then
      let ((ok, err), ev) := validate_patch env
      (if ok then none else some err, ev)
    else (none, [])
  match validationStep with
  | (some err, ev) =>
    ({ success := false, error := "Invalid patch: ".data ++ err, backup_path := [] }, ev)
  | (none, ev) =>
    let (backup_result, evB) := create_backup env backupId
    if !backup_result.success then
      ({ success := false, error := "Failed to create backup".data, backup_path := [] },
       ev ++ evB)
    else
      let r := env GitCmds.applyIndex
      if r.success then
        ({ success := true, error := [], backup_path := backup_result.backup_path },
         ev ++ evB ++ [.runGit GitCmds.applyIndex])
      else
        let (_, evR) := rollback_from_backup env backup_result.backup_path
        ({ success := false, error := "Failed to apply patch: ".data ++ r.error,
           backup_path := [] },
         ev ++ evB ++ [.runGit GitCmds.applyIndex] ++ evR)

/-- Result dictionary of `commit_changes` (a `None` sha is modelled empty). -/
structure CommitResult where
  success : Bool
  error : Str
  commit_sha : Str
deriving DecidableEq

/-- Embedding of `GitOperationsService.commit_changes`: configure the author
identity, stage everything, commit, then read the commit SHA. -/
def commit_changes (env : GitEnv) (commit_message author_name author_email : Str) :
    CommitResult × List Event :=
  let evCfg := [Event.runGit (GitCmds.configName author_name),
                Event.runGit (GitCmds.configEmail author_email)]
  let _r1 := env (GitCmds.configName author_name)
  let _r2 := env (GitCmds.configEmail author_email)
  let addR := env GitCmds.addAll
  if !addR.success then
    ({ success := false, error := "Failed to stage changes".data, commit_sha := [] },
     evCfg ++ [.runGit GitCmds.addAll])
  else
    let commitR := env (GitCmds.commit commit_message)
    if commitR.success then
      let shaR := env GitCmds.revParse
      ({ success := true, error := [],
         commit_sha := if shaR.success then pyStrip shaR.output else [] },
       evCfg ++ [.runGit GitCmds.addAll, .runGit (GitCmds.commit commit_message),
                 .runGit GitCmds.revParse])
    else
      ({ success := false, error := commitR.error, commit_sha := [] },
       evCfg ++ [.runGit GitCmds.addAll, .runGit (GitCmds.commit commit_message)])

/-- Result dictionary of `push_branch`. -/
structure PushResult where
  success : Bool
  error : Str
deriving DecidableEq

/-- Embedding of `GitOperationsService.push_branch`. -/
def push_branch (env : GitEnv) (branch_name : Str) : PushResult × List Event :=
  let r := env (GitCmds.push branch_name)
  ({ success := r.success, error := if r.success then [] else r.error },
   [.runGit (GitCmds.push branch_name)])

end GitOperationsService

/-- Result dictionary of `ProposalService.apply_proposal_direct` (keys absent
on some paths are modelled as empty/default values). -/
structure ServiceResult where
  success : Bool
  error : Str
  commit_sha : Str
  message : Str
  issues : List Issue
deriving DecidableEq

namespace ProposalService

/-- Embedding of `ProposalService.apply_proposal_direct`: gate validation
first (no events on a gate failure), then clone, apply (with dry-run), commit
and push; on a successful push the proposal is persisted as APPLIED.  The
random workspace/backup identifiers are supplied as `cloneId`/`backupId`; the
repository is `proposal.finding.analysis.repository`, passed explicitly. -/
def apply_proposal_direct (env : GitEnv) (p : Proposal) (u : UserData) (repository : Repo)
    (cloneId backupId : Str) : ServiceResult × List Event :=
  let validation_result := validate_proposal_safety p
  if !validation_result.is_safe then
    ({ success := false, error := "Proposal failed safety validation".data,
       commit_sha := [], message := [], issues := validation_result.issues }, [])
  else
    let token := if u.github_access_token ≠ [] then u.github_access_token
                 else u.gitlab_access_token
    let (repoPath?, ev1) := GitOperationsService.clone_repository env
      (GitOperationsService.prepare_clone_url repository token)
      (some repository.default_branch) cloneId
    match repoPath? with
    | none =>
      ({ success := false, error := "Failed to clone repository".data,
         commit_sha := [], message := [], issues := [] }, ev1)
    | some _ =>
      let (patch_result, ev2) := GitOperationsService.apply_patch env true backupId
      if !patch_result.success then
        ({ success := false, error := patch_result.error,
           commit_sha := [], message := [], issues := [] }, ev1 ++ ev2)
      else
        let commit_message := "Fix: ".data ++ p.title
          ++ "\n\nApplied RefactorIQ proposal #".data ++ natStr p.id
          ++ "\n".data ++ p.description
        let author := if u.display_name ≠ [] then u.display_name else u.email
        let (commit_result, ev3) :=
          GitOperationsService.commit_changes env commit_message author u.email
        if !commit_result.success then
          ({ success := false, error := commit_result.error,
             commit_sha := [], message := [], issues := [] }, ev1 ++ ev2 ++ ev3)
        else
          let (push_result, ev4) :=
            GitOperationsService.push_branch env repository.default_branch
          if push_result.success then
            ({ success := true, error := [], commit_sha := commit_result.commit_sha,
               message := "Proposal applied successfully".data, issues := [] },
             ev1 ++ ev2 ++ ev3 ++ ev4 ++ [.setStatus .applied])
          else
            ({ success := false, error := push_result.error,
               commit_sha := [], message := [], issues := [] },
             ev1 ++ ev2 ++ ev3 ++ ev4)

end ProposalService

/-- Result dictionary of `GitHubService._create_branch_with_proposal_changes`. -/
structure BranchResult where
  success : Bool
  error : Str
  branch_name : Str
  commit_sha : Str
deriving DecidableEq

/-- Result dictionary of `GitHubService.create_proposal_pr`. -/
structure PrResult where
  success : Bool
  error : Str
  pr_url : Str
  pr_number : Nat
  branch_name : Str
deriving DecidableEq

namespace GitHubService

/-- Python `repository.default_branch or "main"`. -/
def defaultBranchOr (repository : Repo) : Str :=
  if repository.default_branch ≠ [] then repository.default_branch else "main".data

/-- Embedding of `GitHubService._create_branch_with_proposal_changes`: clone,
create the dedicated branch, apply the patch (with dry-run validation),
commit, and push the branch.  No gate validation occurs on this path. -/
def create_branch_with_proposal_changes (env : GitEnv) (repository : Repo)
    (branch_name : Str) (p : Proposal) (u : UserData) (cloneId backupId : Str) :
    BranchResult × List Event :=
  let (repoPath?, ev1) := GitOperationsService.clone_repository env
    (GitOperationsService.prepare_clone_url repository u.github_access_token)
    (some (defaultBranchOr repository)) cloneId
  match repoPath? with
  | none =>
    ({ success := false, error := "Failed to clone repository".data,
       branch_name := [], commit_sha := [] }, ev1)
  | some _ =>
    let (branchOk, ev2) :=
      GitOperationsService.create_branch env branch_name (defaultBranchOr repository)
    if !branchOk then
      ({ success := false, error := "Failed to create branch".data,
         branch_name := [], commit_sha := [] }, ev1 ++ ev2)
    else
      let (patch_result, ev3) := GitOperationsService.apply_patch env true backupId
      if !patch_result.success then
        ({ success := false, error := patch_result.error,
           branch_name := [], commit_sha := [] }, ev1 ++ ev2 ++ ev3)
      else
        let commit_message := "RefactorIQ Fix: ".data ++ p.title ++ "\n\n".data
          ++ p.description ++ "\n\nProposal ID: ".data ++ natStr p.id
          ++ "\nConfidence: ".data ++ ratStr p.confidence_score
        let author := if u.display_name ≠ [] then u.display_name
                      else u.email.takeWhile (fun c => c ≠ '@')
        let (commit_result, ev4) :=
          GitOperationsService.commit_changes env commit_message author u.email
        if !commit_result.success then
          ({ success := false, error := commit_result.error,
             branch_name := [], commit_sha := [] }, ev1 ++ ev2 ++ ev3 ++ ev4)
        else
          let (push_result, ev5) := GitOperationsService.push_branch env branch_name
          if push_result.success then
            ({ success := true, error := [], branch_name := branch_name,
               commit_sha := commit_result.commit_sha }, ev1 ++ ev2 ++ ev3 ++ ev4 ++ ev5)
          else
            ({ success := false, error := push_result.error,
               branch_name := [], commit_sha := [] }, ev1 ++ ev2 ++ ev3 ++ ev4 ++ ev5)

/-- Embedding of `GitHubService.create_proposal_pr`: build the deterministic
branch name, create the branch with the proposal changes (no gate validation
is invoked anywhere on this path), then open the pull request over HTTP.  The
HTTP response is supplied by `prResponse` (`some (url, number)` for a 201,
`none` for an error status); the request construction and PR-body generation
have no observable effect modelled here. -/
def create_proposal_pr (env : GitEnv) (prResponse : Option (Str × Nat))
    (repository : Repo) (p : Proposal) (u : UserData) (cloneId backupId : Str) :
    PrResult × List Event :=
  let branch_name := "refactoriq-fix-".data ++ natStr p.id ++ "-".data ++ natStr p.finding_id
  let (clone_result, ev) :=
    create_branch_with_proposal_changes env repository branch_name p u cloneId backupId
  if !clone_result.success then
    ({ success := false, error := clone_result.error,
       pr_url := [], pr_number := 0, branch_name := [] }, ev)
  else
    match prResponse with
    | some (url, number) =>
      ({ success := true, error := [], pr_url := url, pr_number := number,
         branch_name := branch_name }, ev)
    | none =>
      ({ success := false, error := "GitHub API error".data,
         pr_url := [], pr_number := 0, branch_name := [] }, ev)

end GitHubService

/-- Functional behaviour of Python `hmac.compare_digest` on strings: equality
(the primitive's point is that it decides this equality in constant time). -/
def hmac_compare_digest (a b : Str) : Bool := a == b

namespace GitHubService

/-- Embedding of `GitHubService.verify_webhook_signature`: reject when no
secret is configured; otherwise compare, via `hmac.compare_digest`, the
presented signature against `"sha256=" + HMAC-SHA256-hexdigest(secret,
payload)`.  The digest computation is an external primitive, passed as
`digest`. -/
def verify_webhook_signature (digest : Str → Str → Str) (webhook_secret payload signature : Str) :
    Bool :=
  if webhook_secret = [] then false
  else hmac_compare_digest signature ("sha256=".data ++ digest webhook_secret payload)

end GitHubService

namespace GitLabService

/-- Embedding of `GitLabService.verify_webhook_token`: reject when no secret
is configured; otherwise compare the presented token against the secret via
`hmac.compare_digest`. -/
def verify_webhook_token (webhook_secret token : Str) : Bool :=
  if webhook_secret = [] then false
  else hmac_compare_digest token webhook_secret

end GitLabService

/-- Keyword-argument names accepted by `subprocess.Popen.__init__`, to which
`asyncio.create_subprocess_exec` forwards every keyword argument other than
`stdin`/`stdout`/`stderr`/`limit`.  Modelled from the documented CPython
interface; passing any other keyword raises `TypeError`. -/
def popenAcceptedKwargs : List Str :=
  ["bufsize".data, "executable".data, "stdin".data, "stdout".data, "stderr".data,
   "preexec_fn".data, "close_fds".data, "shell".data, "cwd".data, "env".data,
   "universal_newlines".data, "startupinfo".data, "creationflags".data,
   "restore_signals".data, "start_new_session".data, "pass_fds".data,
   "encoding".data, "errors".data, "text".data, "user".data, "group".data,
   "extra_groups".data, "umask".data, "pipesize".data, "process_group".data]

/-- The `str(e)` rendering of the `TypeError` raised when an unknown keyword
argument reaches `subprocess.Popen`. -/
def kwargTypeError (kw : Str) : Str :=
  "Popen.__init__ got an unexpected keyword argument ".data ++ kw

/-- The timeout diagnostic built by the `asyncio.TimeoutError` branch of
`_run_git_command`. -/
def timeoutDiagnostic (timeout : Nat) : Str :=
  "Command timed out after ".data ++ natStr timeout ++ " seconds".data

namespace GitOperationsService

/-- Default value of the `timeout` parameter of `_run_git_command`. -/
def defaultGitTimeout : Nat := 30

/-- Embedding of `GitOperationsService._run_git_command` including its launch
mechanics: the source calls `asyncio.create_subprocess_exec(*cmd, cwd=cwd,
stdout=PIPE, stderr=PIPE, timeout=timeout)`, forwarding the keywords `cwd`
and `timeout` towards `subprocess.Popen`.  If every forwarded keyword is
accepted the subprocess runs and `env` supplies its outcome; an unknown
keyword raises `TypeError`, caught by the generic `except` branch. -/
def run_git_command (env : GitEnv) (cmd : GitCmd) (timeout : Nat) : CmdResult :=
  let forwardedKwargs : List Str := ["cwd".data, "timeout".data]
  match forwardedKwargs.find? (fun k => !(popenAcceptedKwargs.contains k)) with
  | some badKw => { success := false, output := [], error := kwargTypeError badKw, returncode := -1 }
  | none => env cmd

end GitOperationsService

/-- Actual old-side size of a chunk: its deletion and context lines (what the
declared `old_count` is supposed to equal for a well-formed diff). -/
def chunkOldActual (c : Chunk) : Nat :=
  (c.lines.filter fun l => l.type = "deletion".data || l.type = "context".data).length

/-- Actual new-side size of a chunk: its addition and context lines (what the
declared `new_count` is supposed to equal for a well-formed diff). -/
def chunkNewActual (c : Chunk) : Nat :=
  (c.lines.filter fun l => l.type = "addition".data || l.type = "context".data).length

/-- A trace position holds a git invocation (as opposed to a status write). -/
def isRunGit : Option Event → Bool
  | some (.runGit _) => true
  | _ => false

/-- The files a parser state will contribute: finished files plus the open one. -/
def ParseState.allFiles (st : ParseState) : List FileDiff :=
  st.files ++ st.current.toList

/-- A sample well-formed, safety-clean patch used by concrete instantiations. -/
def goodPatch : Str := "--- a/a.py\n+++ b/a.py\n@@ -1 +1 @@\n-x\n+y".data

/-- An environment in which every git invocation succeeds. -/
def cEnvOk : GitEnv := fun _ => ⟨true, "abc123\n".data, [], 0⟩

/-- An environment in which only the push is rejected (e.g. protected branch). -/
def cEnvPushFail : GitEnv := fun cmd =>
  if cmd = GitCmds.push "main".data then ⟨false, [], "protected branch".data, 1⟩
  else ⟨true, "abc123\n".data, [], 0⟩

/-- An environment in which only the real apply fails (context conflict). -/
def cEnvApplyFail : GitEnv := fun cmd =>
  if cmd = GitCmds.applyIndex then ⟨false, [], "patch does not apply".data, 1⟩
  else ⟨true, [], [], 0⟩

/-- A pending proposal with a clean patch but confidence 0.5. -/
def cLowProposal : Proposal :=
  ⟨1, 2, "t".data, "d".data, goodPatch, mkRat 1 2, .pending⟩

/-- A pending proposal with a clean patch and confidence 0.9. -/
def cGoodProposal : Proposal :=
  ⟨1, 2, "t".data, "d".data, goodPatch, mkRat 9 10, .pending⟩

/-- A sample user. -/
def cUser : UserData := ⟨"a@b.c".data, [], "tok".data, []⟩

/-- A sample GitHub repository. -/
def cRepo : Repo := ⟨.github, "github.com/o/r".data, "main".data⟩

/-- Sample generated workspace identifier. -/
def cCloneId : Str := "c1".data

/-- Sample generated backup identifier. -/
def cBackupId : Str := "b1".data

/-- A diff whose only chunk header fails the chunk-header grammar. -/
def c6input : Str := "--- a/x\n@@ bad".data

/-- A diff whose chunk declares old/new counts of 5 while containing a single
addition line: the counts do not match the content. -/
def c8diff : Str := "--- a/a.py\n+++ b/a.py\n@@ -1,5 +1,5 @@\n+x".data

/-- A regex accepting the empty string matches from any position. -/
theorem nullable_matchesFrom {r : PyRe.RE} (h : PyRe.nullable r = true) (s : Str) :
    PyRe.matchesFrom r s = true := by
  cases s <;> simp [PyRe.matchesFrom, h]

/-- Matching after taking one derivative yields a match of the longer string. -/
theorem matchesFrom_cons {r : PyRe.RE} {c : Char} {s : Str}
    (h : PyRe.matchesFrom (PyRe.derivC r c) s = true) :
    PyRe.matchesFrom r (c :: s) = true := by
  simp [PyRe.matchesFrom, h]

/-- The `rm\s+-rf` regex matches any string beginning with the literal
characters of `rm -rf`. -/
theorem reRmRf_matchesFrom (t : Str) :
    PyRe.matchesFrom reRmRf ('r' :: 'm' :: ' ' :: '-' :: 'r' :: 'f' :: t) = true := by
  apply matchesFrom_cons
  apply matchesFrom_cons
  apply matchesFrom_cons
  apply matchesFrom_cons
  apply matchesFrom_cons
  apply matchesFrom_cons
  exact nullable_matchesFrom (by decide) t

/-- Characterization of `startsWith` as existence of a suffix. -/
theorem startsWith_iff_append (p s : Str) : startsWith p s = true ↔ ∃ t, s = p ++ t := by
  induction p generalizing s with
  | nil => simp [startsWith]
  | cons a as ih =>
    cases s with
    | nil => simp [startsWith]
    | cons b bs =>
      simp only [startsWith, Bool.and_eq_true, decide_eq_true_eq, ih, List.cons_append]
      constructor
      · rintro ⟨rfl, t, rfl⟩
        exact ⟨t, rfl⟩
      · rintro ⟨t, h⟩
        injection h with h1 h2
        exact ⟨h1.symm, t, h2⟩

/-- A string that starts with `pat` contains `pat` as a substring. -/
theorem containsSubstr_of_startsWith {pat s : Str} (h : startsWith pat s = true) :
    containsSubstr pat s = true := by
  cases s with
  | nil => simpa [containsSubstr] using h
  | cons c rest => simp [containsSubstr, h]

/-- Any extension on the left preserves substring containment. -/
theorem containsSubstr_append_left (pre : Str) {pat s : Str}
    (h : containsSubstr pat s = true) : containsSubstr pat (pre ++ s) = true := by
  induction pre with
  | nil => simpa using h
  | cons c cs ih => simp [containsSubstr, ih]

/-- Substring containment characterized by a decomposition. -/
theorem containsSubstr_exists {pat s : Str} (h : containsSubstr pat s = true) :
    ∃ pre post, s = pre ++ (pat ++ post) := by
  induction s with
  | nil =>
    refine ⟨[], [], ?_⟩
    have h0 : startsWith pat [] = true := by simpa [containsSubstr] using h
    rcases (startsWith_iff_append pat []).mp h0 with ⟨t, ht⟩
    simp_all
  | cons c rest ih =>
    rcases Bool.or_eq_true _ _ |>.mp (by simpa [containsSubstr] using h) with h1 | h2
    · rcases (startsWith_iff_append pat (c :: rest)).mp h1 with ⟨t, ht⟩
      exact ⟨[], t, by simpa using ht⟩
    · rcases ih h2 with ⟨pre, post, hp⟩
      exact ⟨c :: pre, post, by simp [hp]⟩

/-- Substring containment is preserved by mapping a character function. -/
theorem containsSubstr_map (f : Char → Char) {pat s : Str}
    (h : containsSubstr pat s = true) :
    containsSubstr (pat.map f) (s.map f) = true := by
  rcases containsSubstr_exists h with ⟨pre, post, rfl⟩
  simp only [List.map_append]
  apply containsSubstr_append_left
  apply containsSubstr_of_startsWith
  exact (startsWith_iff_append _ _).mpr ⟨post.map f, rfl⟩

/-- A string containing the literal `rm -rf` is matched by the `rm\s+-rf` regex. -/
theorem search_reRmRf_of_contains {s : Str} (h : containsSubstr "rm -rf".data s = true) :
    PyRe.search reRmRf s = true := by
  induction s with
  | nil => simpa [containsSubstr, startsWith] using h
  | cons c rest ih =>
    rcases Bool.or_eq_true _ _ |>.mp (by simpa [containsSubstr] using h) with h1 | h2
    · rcases (startsWith_iff_append _ _).mp h1 with ⟨t, ht⟩
      have ht' : c :: rest = 'r' :: 'm' :: ' ' :: '-' :: 'r' :: 'f' :: t := by
        simpa using ht
      injection ht' with hc hrest
      subst hc
      rw [hrest]
      have := reRmRf_matchesFrom t
      simp [PyRe.search, this]
    · have := ih h2
      simp [PyRe.search, this]

/-- The case-insensitive scan finds `rm\s+-rf` in any text containing the
lower-case literal `rm -rf`. -/
theorem searchCI_reRmRf_of_contains {s : Str}
    (h : containsSubstr "rm -rf".data s = true) :
    PyRe.searchCI reRmRf s = true := by
  have hmap := containsSubstr_map asciiLower h
  have hfix : ("rm -rf".data).map asciiLower = "rm -rf".data := by decide
  rw [hfix] at hmap
  exact search_reRmRf_of_contains hmap

/-- Python `max` agrees with the mathematical `max` on rationals. -/
theorem pyMax_eq_max (a b : ℚ) : pyMax a b = max a b := by
  unfold pyMax
  rcases lt_or_ge a b with h | h
  · simp [h, max_eq_right h.le]
  · simp [not_lt.mpr h, max_eq_left h]

/-- C3: for every patch text, `validate_patch_safety` returns
`safetyScore = max(0, 1 − 0.3·|issues| − 0.1·|warnings|)`,
`isSafe = (|issues| = 0)` and recommendation `safe` exactly when safe, else
`review_required`; an internal error maps to `reject` with `isSafe` false and
score 0; and any patch text containing `rm -rf` yields `isSafe` false with a
non-empty issues list. -/
theorem c3_safety_scoring (patch_content : Str) :
    (PatchValidator.validate_patch_safety patch_content).safety_score =
      pyMax 0 (1 - (((PatchValidator.validate_patch_safety patch_content).issues.length : ℚ) * mkRat 3 10
        + ((PatchValidator.validate_patch_safety patch_content).warnings.length : ℚ) * mkRat 1 10))
    ∧ (PatchValidator.validate_patch_safety patch_content).is_safe =
        decide ((PatchValidator.validate_patch_safety patch_content).issues.length = 0)
    ∧ (PatchValidator.validate_patch_safety patch_content).recommendation =
        (if (PatchValidator.validate_patch_safety patch_content).issues.length = 0
         then "safe".data else "review_required".data)
    ∧ (∀ msg, PatchValidator.validate_patch_safety_error msg =
        { is_safe := false, safety_score := 0,
          issues := [⟨"validation_error".data, [], msg⟩], warnings := [],
          recommendation := "reject".data })
    ∧ (containsSubstr "rm -rf".data patch_content = true →
        (PatchValidator.validate_patch_safety patch_content).is_safe = false
        ∧ (PatchValidator.validate_patch_safety patch_content).issues ≠ []) := by
  refine ⟨rfl, rfl, rfl, fun _ => rfl, fun h => ?_⟩
  have hsearch : PyRe.searchCI reRmRf patch_content = true := searchCI_reRmRf_of_contains h
  have hmem : (⟨"security".data, "rm\\s+-rf".data, "Dangerous file deletion command".data⟩ : Issue)
      ∈ (PatchValidator.validate_patch_safety patch_content).issues := by
    show _ ∈ (dangerousPatterns.filter fun pr => PyRe.searchCI pr.1 patch_content).map
      fun pr => (⟨"security".data, pr.2.1, pr.2.2⟩ : Issue)
    refine List.mem_map.mpr
      ⟨(reRmRf, "rm\\s+-rf".data, "Dangerous file deletion command".data), ?_, rfl⟩
    refine List.mem_filter.mpr ⟨?_, by simpa using hsearch⟩
    simp [dangerousPatterns]
  have hne : (PatchValidator.validate_patch_safety patch_content).issues ≠ [] :=
    List.ne_nil_of_mem hmem
  refine ⟨?_, hne⟩
  have hlen : ¬ ((PatchValidator.validate_patch_safety patch_content).issues.length = 0) := by
    simpa [List.length_eq_zero] using hne
  show decide ((PatchValidator.validate_patch_safety patch_content).issues.length = 0) = false
  exact decide_eq_false hlen

/-- Witness for C3 at a concrete `rm -rf` patch. -/
theorem c3_safety_scoring_witness :
    containsSubstr "rm -rf".data "+rm -rf /tmp".data = true
    ∧ (PatchValidator.validate_patch_safety "+rm -rf /tmp".data).is_safe = false
    ∧ (PatchValidator.validate_patch_safety "+rm -rf /tmp".data).issues ≠ [] := by
  refine ⟨by decide, ?_, ?_⟩
  · exact ((c3_safety_scoring "+rm -rf /tmp".data).2.2.2.2 (by decide)).1
  · exact ((c3_safety_scoring "+rm -rf /tmp".data).2.2.2.2 (by decide)).2

/-- C10: `is_safe_patch` is true only when there are zero blocking issues and
the safety score strictly exceeds 0.7; hence zero issues with three or more
warnings (score at most 0.7) makes it false. -/
theorem c10_is_safe_patch (patch_content : Str) :
    is_safe_patch patch_content =
      ((PatchValidator.validate_patch_safety patch_content).is_safe
        && decide (mkRat 7 10 < (PatchValidator.validate_patch_safety patch_content).safety_score))
    ∧ ((PatchValidator.validate_patch_safety patch_content).issues = [] →
        3 ≤ (PatchValidator.validate_patch_safety patch_content).warnings.length →
        is_safe_patch patch_content = false) := by
  refine ⟨rfl, fun hIss hW => ?_⟩
  have hscore : (PatchValidator.validate_patch_safety patch_content).safety_score ≤ mkRat 7 10 := by
    have h1 : (PatchValidator.validate_patch_safety patch_content).safety_score =
        pyMax 0 (1 - (((PatchValidator.validate_patch_safety patch_content).issues.length : ℚ) * mkRat 3 10
          + ((PatchValidator.validate_patch_safety patch_content).warnings.length : ℚ) * mkRat 1 10)) :=
      rfl
    rw [h1, hIss, pyMax_eq_max]
    have hw : (3 : ℚ) ≤ ((PatchValidator.validate_patch_safety patch_content).warnings.length : ℚ) := by
      exact_mod_cast hW
    rw [Rat.mkRat_eq_div, Rat.mkRat_eq_div, Rat.mkRat_eq_div]
    apply max_le
    · norm_num
    · simp only [List.length_nil, Nat.cast_zero, zero_mul, zero_add]
      push_cast
      linarith
  have hnot : ¬ (mkRat 7 10 < (PatchValidator.validate_patch_safety patch_content).safety_score) :=
    not_lt.mpr hscore
  show ((PatchValidator.validate_patch_safety patch_content).is_safe
    && decide (mkRat 7 10 < (PatchValidator.validate_patch_safety patch_content).safety_score)) = false
  rw [decide_eq_false hnot]
  exact Bool.and_false _

/-- Witness for C10 at a patch with zero issues and three warnings. -/
theorem c10_is_safe_patch_witness :
    (PatchValidator.validate_patch_safety "+password = \"x\"\n+# TODO\n+print(\"hi\")".data).issues = []
    ∧ 3 ≤ (PatchValidator.validate_patch_safety "+password = \"x\"\n+# TODO\n+print(\"hi\")".data).warnings.length
    ∧ is_safe_patch "+password = \"x\"\n+# TODO\n+print(\"hi\")".data = false := by
  refine ⟨by decide, by decide, ?_⟩
  exact (c10_is_safe_patch "+password = \"x\"\n+# TODO\n+print(\"hi\")".data).2 (by decide) (by decide)

/-- C1: the apply gate passes exactly when safety, format and the
confidence ≥ 0.7 threshold all hold; a proposal at confidence 0.5 with a
safe, well-formed patch fails the gate and its issues list carries a
low-confidence entry. -/
theorem c1_apply_gate (p : Proposal) :
    (ProposalService.validate_proposal_safety p).is_safe =
      ((PatchValidator.validate_patch_safety p.patch_diff).is_safe
        && (PatchValidator.validate_patch_format p.patch_diff).valid
        && decide (p.confidence_score ≥ mkRat 7 10))
    ∧ (p.confidence_score = mkRat 1 2 →
        (PatchValidator.validate_patch_safety p.patch_diff).is_safe = true →
        (PatchValidator.validate_patch_format p.patch_diff).valid = true →
        (ProposalService.validate_proposal_safety p).is_safe = false
        ∧ ∃ i ∈ (ProposalService.validate_proposal_safety p).issues,
            i.type = "confidence".data) := by
  refine ⟨rfl, fun hc hs hf => ?_⟩
  have hcc : decide (p.confidence_score ≥ mkRat 7 10) = false := by
    rw [hc]; decide
  constructor
  · show ((PatchValidator.validate_patch_safety p.patch_diff).is_safe
      && (PatchValidator.validate_patch_format p.patch_diff).valid
      && decide (p.confidence_score ≥ mkRat 7 10)) = false
    rw [hs, hf, hcc]
    rfl
  · refine ⟨⟨"confidence".data, [],
      "Low confidence score: ".data ++ ratStr p.confidence_score⟩, ?_, rfl⟩
    show _ ∈ (ProposalService.validate_proposal_safety p).issues
    simp only [ProposalService.validate_proposal_safety]
    simp [hs, hf, hcc]

/-- Witness for C1 at a concrete confidence-0.5 proposal with a clean patch. -/
theorem c1_apply_gate_witness :
    cLowProposal.confidence_score = mkRat 1 2
    ∧ (PatchValidator.validate_patch_safety cLowProposal.patch_diff).is_safe = true
    ∧ (PatchValidator.validate_patch_format cLowProposal.patch_diff).valid = true
    ∧ (ProposalService.validate_proposal_safety cLowProposal).is_safe = false
    ∧ ∃ i ∈ (ProposalService.validate_proposal_safety cLowProposal).issues,
        i.type = "confidence".data := by
  have h := (c1_apply_gate cLowProposal).2 rfl (by decide) (by decide)
  exact ⟨rfl, by decide, by decide, h.1, h.2⟩

/-- C9: webhook verification accepts exactly on credential equality with the
expected value (GitHub: `sha256=` plus the HMAC hex digest of the payload
under the secret; GitLab: the secret itself), and the comparison is routed
through the constant-time primitive `hmac.compare_digest`, whose functional
behaviour is equality. -/
theorem c9_webhook_verification (digest : Str → Str → Str)
    (webhook_secret payload signature token : Str) (h : webhook_secret ≠ []) :
    (GitHubService.verify_webhook_signature digest webhook_secret payload signature = true
      ↔ signature = "sha256=".data ++ digest webhook_secret payload)
    ∧ GitHubService.verify_webhook_signature digest webhook_secret payload signature =
        hmac_compare_digest signature ("sha256=".data ++ digest webhook_secret payload)
    ∧ (GitLabService.verify_webhook_token webhook_secret token = true ↔ token = webhook_secret)
    ∧ GitLabService.verify_webhook_token webhook_secret token =
        hmac_compare_digest token webhook_secret := by
  refine ⟨?_, ?_, ?_, ?_⟩ <;>
    simp [GitHubService.verify_webhook_signature, GitLabService.verify_webhook_token,
      hmac_compare_digest, h]

/-- Witness for C9 at concrete secret, payload and credentials. -/
theorem c9_webhook_verification_witness :
    GitHubService.verify_webhook_signature (fun _ _ => "d".data) "s".data "p".data
      "sha256=d".data = true
    ∧ GitLabService.verify_webhook_token "s".data "s".data = true := by
  have h := c9_webhook_verification (fun _ _ => "d".data) "s".data "p".data
    "sha256=d".data "s".data (by decide)
  exact ⟨h.1.mpr (by decide), h.2.2.1.mpr rfl⟩

/-- A line that starts with `@@` but fails the chunk-header grammar is
reported, at its 1-based number, in the chunk-error accumulation. -/
theorem mem_chunkErrorsFrom (L : List Str) (base : Nat) :
    ∀ i l, L.get? i = some l → startsWith "@@".data l = true →
      matchesChunkHeader l = false →
      chunkErrMsg (base + i) l ∈ chunkErrorsFrom base L := by
  induction L generalizing base with
  | nil => intro i l h _ _; simp [List.get?] at h
  | cons x rest ih =>
    intro i l hget hsw hm
    cases i with
    | zero =>
      have hx : x = l := by simpa [List.get?] using hget
      subst hx
      simp [chunkErrorsFrom, hsw, hm]
    | succ j =>
      have hmem := ih (base + 1) j l (by simpa [List.get?] using hget) hsw hm
      have harith : base + (j + 1) = (base + 1) + j := by omega
      rw [harith]
      simp only [chunkErrorsFrom, List.mem_append]
      exact Or.inr hmem

/-- C6: `validate_patch_format` applies its rules in order: empty or
whitespace-only input is rejected with a descriptive error; input lacking a
`--- ` line or an `@@` line is rejected; input in which some `@@` line fails
the chunk-header grammar is rejected with an error naming that line's 1-based
number; otherwise the input is accepted. -/
theorem c6_format_rules (patch_content : Str) :
    (pyStrip patch_content = [] →
      PatchValidator.validate_patch_format patch_content =
        .invalid "Empty patch content".data)
    ∧ (pyStrip patch_content ≠ [] →
        (((splitNL (pyStrip patch_content)).any fun l => startsWith "--- ".data l)
          && ((splitNL (pyStrip patch_content)).any fun l => startsWith "@@".data l)) = false →
        PatchValidator.validate_patch_format patch_content =
          .invalid "Invalid diff format".data)
    ∧ (pyStrip patch_content ≠ [] →
        ((splitNL (pyStrip patch_content)).any fun l => startsWith "--- ".data l) = true →
        ((splitNL (pyStrip patch_content)).any fun l => startsWith "@@".data l) = true →
        ∀ i l, (splitNL (pyStrip patch_content)).get? i = some l →
          startsWith "@@".data l = true → matchesChunkHeader l = false →
          (PatchValidator.validate_patch_format patch_content =
              .invalid ("Invalid chunk headers: ".data
                ++ List.intercalate "; ".data (chunkErrorsFrom 0 (splitNL (pyStrip patch_content))))
            ∧ chunkErrMsg i l ∈ chunkErrorsFrom 0 (splitNL (pyStrip patch_content))))
    ∧ (pyStrip patch_content ≠ [] →
        ((splitNL (pyStrip patch_content)).any fun l => startsWith "--- ".data l) = true →
        ((splitNL (pyStrip patch_content)).any fun l => startsWith "@@".data l) = true →
        chunkErrorsFrom 0 (splitNL (pyStrip patch_content)) = [] →
        PatchValidator.validate_patch_format patch_content = .ok) := by
  refine ⟨fun h1 => ?_, fun h1 h2 => ?_, fun h1 hF hC i l hget hsw hm => ?_,
    fun h1 hF hC hce => ?_⟩
  · simp [PatchValidator.validate_patch_format, h1]
  · simp [PatchValidator.validate_patch_format, h1, h2]
  · have hmem := mem_chunkErrorsFrom (splitNL (pyStrip patch_content)) 0 i l hget hsw hm
    rw [Nat.zero_add] at hmem
    have hne : chunkErrorsFrom 0 (splitNL (pyStrip patch_content)) ≠ [] :=
      List.ne_nil_of_mem hmem
    refine ⟨?_, hmem⟩
    simp [PatchValidator.validate_patch_format, h1, hF, hC, hne]
  · simp [PatchValidator.validate_patch_format, h1, hF, hC, hce]

/-- Witness for C6 at a concrete diff whose second line is a bad chunk header. -/
theorem c6_format_rules_witness :
    PatchValidator.validate_patch_format c6input =
      .invalid ("Invalid chunk headers: ".data
        ++ List.intercalate "; ".data (chunkErrorsFrom 0 (splitNL (pyStrip c6input))))
    ∧ chunkErrMsg 1 "@@ bad".data ∈ chunkErrorsFrom 0 (splitNL (pyStrip c6input)) := by
  exact (c6_format_rules c6input).2.2.1 (by decide) (by decide) (by decide)
    1 "@@ bad".data (by decide) (by decide) (by decide)

/-- One parser step preserves the aggregate-count invariant: the global
running totals equal the sums of the per-file counts (finished files plus the
open one). -/
theorem parseStep_totals (st : ParseState) (line : Str)
    (hA : st.total_additions = ((st.allFiles).map FileDiff.additions).sum)
    (hD : st.total_deletions = ((st.allFiles).map FileDiff.deletions).sum) :
    (PatchParser.parseStep st line).total_additions =
      (((PatchParser.parseStep st line).allFiles).map FileDiff.additions).sum
    ∧ (PatchParser.parseStep st line).total_deletions =
      (((PatchParser.parseStep st line).allFiles).map FileDiff.deletions).sum := by
  obtain ⟨cur, fs, ta, td⟩ := st
  simp only [ParseState.allFiles] at hA hD
  unfold PatchParser.parseStep
  cases cur with
  | none =>
    split
    · constructor <;> simp_all [ParseState.allFiles]
    · split
      · constructor <;> simp_all [ParseState.allFiles]
      · split
        · rcases hpc : PatchParser.parse_chunk_header line with _ | tup
          · constructor <;> simp_all [ParseState.allFiles]
          · constructor <;> simp_all [ParseState.allFiles]
        · constructor <;> simp_all [ParseState.allFiles]
  | some f =>
    split
    · constructor <;> simp_all [ParseState.allFiles]
    · split
      · constructor <;> simp_all [ParseState.allFiles]
      · split
        · rcases hpc : PatchParser.parse_chunk_header line with _ | tup
          · constructor <;> simp_all [ParseState.allFiles]
          · obtain ⟨os, oc, ns, nc⟩ := tup
            constructor <;> simp_all [ParseState.allFiles]
        · by_cases hch : f.chunks ≠ []
          · by_cases hplus : startsWith "+".data line = true
            · constructor <;>
                simp_all [ParseState.allFiles, List.sum_append] <;> omega
            · by_cases hminus : startsWith "-".data line = true
              · constructor <;>
                  simp_all [ParseState.allFiles, List.sum_append] <;> omega
              · constructor <;> simp_all [ParseState.allFiles]
          · constructor <;> simp_all [ParseState.allFiles]

/-- Folding the parser over any line list preserves the aggregate-count
invariant. -/
theorem foldl_parseStep_totals (lines : List Str) (st : ParseState)
    (hA : st.total_additions = ((st.allFiles).map FileDiff.additions).sum)
    (hD : st.total_deletions = ((st.allFiles).map FileDiff.deletions).sum) :
    (lines.foldl PatchParser.parseStep st).total_additions =
      (((lines.foldl PatchParser.parseStep st).allFiles).map FileDiff.additions).sum
    ∧ (lines.foldl PatchParser.parseStep st).total_deletions =
      (((lines.foldl PatchParser.parseStep st).allFiles).map FileDiff.deletions).sum := by
  induction lines generalizing st with
  | nil => exact ⟨hA, hD⟩
  | cons l rest ih =>
    have hstep := parseStep_totals st l hA hD
    exact ih _ hstep.1 hstep.2

/-- Counterexample to C8: a diff whose chunk declares old/new counts of 5 but
contains a single addition line is not rejected — the parser returns a
populated `ParsedDiff` whose chunk counts disagree with its lines. -/
theorem c8_mismatch_not_rejected :
    (∃ f ∈ (PatchParser.parse_unified_diff c8diff).files,
       ∃ c ∈ f.chunks, chunkOldActual c ≠ c.old_count ∨ chunkNewActual c ≠ c.new_count)
    ∧ (PatchParser.parse_unified_diff c8diff).total_files = 1
    ∧ (PatchParser.parse_unified_diff c8diff).files ≠ [] := by
  decide

/-- C8 (amended): `parse_unified_diff` performs no per-chunk count
validation — it returns a `ParsedDiff` for every input, keeping declared
counts verbatim next to the actual lines (shown at the mismatched diff
`c8diff`), and maintains only the aggregate invariant that global totals
equal the per-file sums. -/
theorem c8_parser_total_on_mismatch :
    (∀ s, (PatchParser.parse_unified_diff s).total_additions =
        (((PatchParser.parse_unified_diff s).files).map FileDiff.additions).sum
      ∧ (PatchParser.parse_unified_diff s).total_deletions =
        (((PatchParser.parse_unified_diff s).files).map FileDiff.deletions).sum)
    ∧ PatchParser.parse_unified_diff c8diff =
        ⟨[⟨"a.py".data, some "a.py".data,
           [⟨"@@ -1,5 +1,5 @@".data, 1, 5, 1, 5, [⟨"addition".data, "x".data⟩]⟩], 1, 0⟩],
         1, 0, 1⟩ := by
  constructor
  · intro s
    exact foldl_parseStep_totals (splitNL (pyStrip s)) ⟨none, [], 0, 0⟩ rfl rfl
  · decide

/-- C7 (code behaviour at the failing input): every invocation of
`_run_git_command` forwards the unsupported keyword `timeout` towards
`subprocess.Popen`, so process creation raises `TypeError` and the generic
`except` branch reports a failure whose diagnostic is the `TypeError` text —
never the timeout diagnostic; no invocation is actually bounded by the
timeout. -/
theorem c7_timeout_kwarg_type_error (env : GitEnv) (cmd : GitCmd) (timeout : Nat) :
    GitOperationsService.run_git_command env cmd timeout =
      { success := false, output := [], error := kwargTypeError "timeout".data,
        returncode := -1 }
    ∧ kwargTypeError "timeout".data ≠ timeoutDiagnostic timeout := by
  constructor
  · rfl
  · intro h
    have h1 : (kwargTypeError "timeout".data).head? = some 'P' := rfl
    have h2 : (timeoutDiagnostic timeout).head? = some 'C' := rfl
    rw [h, h2] at h1
    exact absurd (Option.some.inj h1) (by decide)

/-- C2 (amended): on the direct-apply path, a proposal that fails the gate is
rejected before any workspace operation — the result is the validation
failure and the event trace is empty. -/
theorem c2_direct_path_short_circuit (env : GitEnv) (p : Proposal) (u : UserData)
    (repository : Repo) (cloneId backupId : Str)
    (h : (ProposalService.validate_proposal_safety p).is_safe = false) :
    ProposalService.apply_proposal_direct env p u repository cloneId backupId =
      ({ success := false, error := "Proposal failed safety validation".data,
         commit_sha := [], message := [],
         issues := (ProposalService.validate_proposal_safety p).issues }, []) := by
  simp [ProposalService.apply_proposal_direct, h]

/-- Witness for the C2 amended theorem at a concrete failing proposal. -/
theorem c2_direct_path_short_circuit_witness :
    (ProposalService.validate_proposal_safety cLowProposal).is_safe = false
    ∧ ProposalService.apply_proposal_direct cEnvOk cLowProposal cUser cRepo cCloneId cBackupId =
        ({ success := false, error := "Proposal failed safety validation".data,
           commit_sha := [], message := [],
           issues := (ProposalService.validate_proposal_safety cLowProposal).issues }, []) := by
  have hfalse : (ProposalService.validate_proposal_safety cLowProposal).is_safe = false := by
    decide
  exact ⟨hfalse,
    c2_direct_path_short_circuit cEnvOk cLowProposal cUser cRepo cCloneId cBackupId hfalse⟩

/-- Counterexample to C2: on the pull-request path the same gate-failing
proposal still triggers a clone — the clone invocation appears in the trace of
`create_proposal_pr`, which performs no gate validation. -/
theorem c2_pr_path_clones_unvalidated :
    (ProposalService.validate_proposal_safety cLowProposal).is_safe = false
    ∧ Event.runGit (GitCmds.clone (some (GitHubService.defaultBranchOr cRepo))
        (GitOperationsService.prepare_clone_url cRepo cUser.github_access_token)
        (GitOperationsService.work_dir ++ "/repo_".data ++ cCloneId))
      ∈ (GitHubService.create_proposal_pr cEnvOk (some ("url".data, 5)) cRepo cLowProposal
          cUser cCloneId cBackupId).2 := by
  decide

/-- C4 (amended): a failed real apply inside `apply_patch` triggers the
rollback routine (a `git reset --hard HEAD`) before the failure is reported. -/
theorem c4_apply_failure_rollback (env : GitEnv) (backupId : Str)
    (hcheck : (env GitCmds.check).success = true)
    (happly : (env GitCmds.applyIndex).success = false) :
    (GitOperationsService.apply_patch env true backupId).1.success = false
    ∧ Event.runGit GitCmds.resetHard ∈ (GitOperationsService.apply_patch env true backupId).2 := by
  unfold GitOperationsService.apply_patch GitOperationsService.validate_patch
    GitOperationsService.create_backup GitOperationsService.rollback_from_backup
  simp [hcheck, happly]

/-- Witness for the C4 amended theorem at a concrete conflicting apply. -/
theorem c4_apply_failure_rollback_witness :
    (cEnvApplyFail GitCmds.check).success = true
    ∧ (cEnvApplyFail GitCmds.applyIndex).success = false
    ∧ (GitOperationsService.apply_patch cEnvApplyFail true cBackupId).1.success = false
    ∧ Event.runGit GitCmds.resetHard
        ∈ (GitOperationsService.apply_patch cEnvApplyFail true cBackupId).2 := by
  have h := c4_apply_failure_rollback cEnvApplyFail cBackupId (by decide) (by decide)
  exact ⟨by decide, by decide, h.1, h.2⟩

/-- Counterexample to C4: when the push is rejected after the backup
checkpoint was taken, the direct-apply operation reports failure without any
restore — the trace contains the backup but no `git reset --hard HEAD`. -/
theorem c4_push_rejection_no_restore :
    (ProposalService.apply_proposal_direct cEnvPushFail cGoodProposal cUser cRepo
      cCloneId cBackupId).1.success = false
    ∧ Event.runGit (GitCmds.stashPush cBackupId)
        ∈ (ProposalService.apply_proposal_direct cEnvPushFail cGoodProposal cUser cRepo
            cCloneId cBackupId).2
    ∧ Event.runGit GitCmds.resetHard
        ∉ (ProposalService.apply_proposal_direct cEnvPushFail cGoodProposal cUser cRepo
            cCloneId cBackupId).2 := by
  decide

/-- Cloning emits only git invocations, never a status write. -/
theorem setStatus_not_in_clone (env : GitEnv) (url : Str) (branch : Option Str)
    (cloneId : Str) (st : ProposalStatus) :
    Event.setStatus st ∉ (GitOperationsService.clone_repository env url branch cloneId).2 := by
  simp [GitOperationsService.clone_repository]

/-- Patch application emits only git invocations, never a status write. -/
theorem setStatus_not_in_apply_patch (env : GitEnv) (validate : Bool) (backupId : Str)
    (st : ProposalStatus) :
    Event.setStatus st ∉ (GitOperationsService.apply_patch env validate backupId).2 := by
  unfold GitOperationsService.apply_patch GitOperationsService.validate_patch
    GitOperationsService.create_backup GitOperationsService.rollback_from_backup
  cases validate <;>
    by_cases h1 : (env GitCmds.check).success <;>
    by_cases h2 : (env GitCmds.applyIndex).success <;>
    simp [h1, h2]

/-- Committing emits only git invocations, never a status write. -/
theorem setStatus_not_in_commit (env : GitEnv) (msg n e : Str) (st : ProposalStatus) :
    Event.setStatus st ∉ (GitOperationsService.commit_changes env msg n e).2 := by
  unfold GitOperationsService.commit_changes
  by_cases h1 : (env GitCmds.addAll).success <;>
    by_cases h2 : (env (GitCmds.commit msg)).success <;>
    simp [h1, h2]

/-- Pushing emits only git invocations, never a status write. -/
theorem setStatus_not_in_push (env : GitEnv) (branch : Str) (st : ProposalStatus) :
    Event.setStatus st ∉ (GitOperationsService.push_branch env branch).2 := by
  simp [GitOperationsService.push_branch]

/-- C5 (amended): no APPLYING transition is ever persisted by an apply
attempt — the only status write the direct-apply path can emit is APPLIED,
after a successful push. -/
theorem c5_no_applying_transition :
    ∀ (env : GitEnv) (p : Proposal) (u : UserData) (repository : Repo)
      (cloneId backupId : Str) (st : ProposalStatus),
      Event.setStatus st ∈
        (ProposalService.apply_proposal_direct env p u repository cloneId backupId).2 →
      st = ProposalStatus.applied := by
  intro env p u repository cloneId backupId st hmem
  have hpatch := setStatus_not_in_apply_patch env true backupId st
  have hcommit := setStatus_not_in_commit env
    ("Fix: ".data ++ p.title ++ "\n\nApplied RefactorIQ proposal #".data ++ natStr p.id
      ++ "\n".data ++ p.description)
    (if u.display_name ≠ [] then u.display_name else u.email) u.email st
  have hpush := setStatus_not_in_push env repository.default_branch st
  unfold ProposalService.apply_proposal_direct at hmem
  by_cases h0 : (ProposalService.validate_proposal_safety p).is_safe <;>
  by_cases h1 : (env (GitCmds.clone (some repository.default_branch)
      (GitOperationsService.prepare_clone_url repository
        (if u.github_access_token ≠ [] then u.github_access_token
         else u.gitlab_access_token))
      (GitOperationsService.work_dir ++ "/repo_".data ++ cloneId))).success <;>
  by_cases h2 : (GitOperationsService.apply_patch env true backupId).1.success <;>
  by_cases h3 : (GitOperationsService.commit_changes env
      ("Fix: ".data ++ p.title ++ "\n\nApplied RefactorIQ proposal #".data
        ++ natStr p.id ++ "\n".data ++ p.description)
      (if u.display_name ≠ [] then u.display_name else u.email) u.email).1.success <;>
  by_cases h4 : (GitOperationsService.push_branch env repository.default_branch).1.success <;>
  simp [GitOperationsService.clone_repository, h0, h1, h2, h3, h4,
    hpatch, hcommit, hpush] at hmem <;>
  simp_all

/-- Witness for the C5 amended theorem: the concrete successful direct-apply
run does persist APPLIED (so the theorem applies to a satisfied membership
hypothesis) and, by the theorem, never persists APPLYING. -/
theorem c5_no_applying_transition_witness :
    Event.setStatus ProposalStatus.applied ∈
        (ProposalService.apply_proposal_direct cEnvOk cGoodProposal cUser cRepo
          cCloneId cBackupId).2
    ∧ Event.setStatus ProposalStatus.applying ∉
        (ProposalService.apply_proposal_direct cEnvOk cGoodProposal cUser cRepo
          cCloneId cBackupId).2 := by
  refine ⟨by decide, fun hmem => ?_⟩
  exact absurd
    (c5_no_applying_transition cEnvOk cGoodProposal cUser cRepo
      cCloneId cBackupId ProposalStatus.applying hmem)
    (by decide)

/-- Counterexample to C5: on a successful concrete direct-apply attempt the
first action is a git clone (a workspace operation, not a persisted APPLYING
transition), no APPLYING status is ever persisted, and the only persisted
transition is APPLIED, as the last action, after the push. -/
theorem c5_applying_not_first_action :
    isRunGit (ProposalService.apply_proposal_direct cEnvOk cGoodProposal cUser cRepo
      cCloneId cBackupId).2.head? = true
    ∧ Event.setStatus ProposalStatus.applying ∉
        (ProposalService.apply_proposal_direct cEnvOk cGoodProposal cUser cRepo
          cCloneId cBackupId).2
    ∧ (ProposalService.apply_proposal_direct cEnvOk cGoodProposal cUser cRepo
        cCloneId cBackupId).2.getLast? = some (Event.setStatus ProposalStatus.applied) := by
  decide

end RefactorIQ
